import Mathlib

/-!
# Shallow embedding of `src/runner-modules/tabs/lib/background/tabsMethods.js`

The source module exports a factory taking a `tabManager` collaborator and
returning a map of async command handlers (`tabs.create`, `tabs.navigate`,
`tabs.run`, `tabs.wait`, `tabs.waitForNewPage`).

Embedding choices:
* JavaScript values that flow through the handlers (the `id`, `code`, `arg`
  and `reject`/`resolve` fields) are modelled by `JSVal`, with JS truthiness
  (`NaN` is out of scope: numbers are `Int`).
* The tab manager is an oracle (`TabManager`): `hasTab` and `navigateTab`
  are functions of their arguments, `runContentScript` additionally takes
  the index of the call within one handler invocation (so successive retry
  attempts may observe different results), and the winner of the
  `Promise.race` in `waitForNewPage` is the Boolean `newContentBeforeTimeout`.
* `Date.now()` is an oracle `now : Nat → Int` giving the time observed at
  the k-th `Date.now()` call of one handler invocation.
* Each handler returns its result (`Except` for throw/return) paired with
  the ordered trace of collaborator calls it made (`List Event`), so that
  call-ordering claims are statements about the trace.
* The unbounded retry loop of `wait` is embedded with explicit fuel:
  `none` means the loop is still running after `fuel` attempts.
-/

namespace TabsMethods

/-- A JavaScript value as observed by the handlers. `NaN` and objects other
than the ones modelled explicitly are out of scope. -/
inductive JSVal where
  | vUndefined
  | vNull
  | vBool (b : Bool)
  | vNum (n : Int)
  | vStr (s : String)
  deriving DecidableEq, Repr

/-- JavaScript truthiness of a `JSVal` (as used by `if (reject)`). -/
def JSVal.truthy : JSVal → Bool
  | .vUndefined => false
  | .vNull => false
  | .vBool b => b
  | .vNum n => n != 0
  | .vStr s => s != ""

/-- Modelled from the spec: the distinguished `name` carried by the error the
tab manager raises when navigation destroys the running script's execution
context. The constant lives in `lib/scriptErrors`, which is not under `src/`;
only its role as a distinguished, comparable error name matters here. -/
def CONTENT_SCRIPT_ABORTED_ERROR : String := "ContentScriptAbortedError"

/-- Modelled from the spec: errors produced by the `lib/scriptErrors` helpers
(`illegalArgumentError`, `newPageWaitTimeoutError`; the file is not under
`src/`) and arbitrary errors raised by script execution. `illegalArgument`
carries the message built at the call site; `newPageWaitTimeout` records the
seconds value interpolated into its message (`timeoutMs / 1000`, exact
rational in place of the JS number); `raised name payload` is any other
error object, identified (as in the source) only by its `name`. -/
inductive ScriptError where
  | illegalArgument (message : String)
  | newPageWaitTimeout (seconds : ℚ)
  | raised (name : String) (payload : Nat)
  deriving DecidableEq, Repr

/-- The `name` property of an error object (`err.name` in the source). -/
def ScriptError.name : ScriptError → String
  | .illegalArgument _ => "IllegalArgumentError"
  | .newPageWaitTimeout _ => "NewPageWaitTimeoutError"
  | .raised n _ => n

/-- The frozen metadata records attached to an execution. Absent fields are
`none`: `run`/`waitForNewPage` stamp only `runBeginTime`, the `waitMetadata`
of `wait` holds only `waitBeginTime`, and each retry attempt's metadata
(via `Object.assign`) holds all three fields. -/
structure Metadata where
  runBeginTime : Option Int := none
  waitBeginTime : Option Int := none
  attemptNumber : Option Nat := none
  deriving DecidableEq, Repr

/-- Result object of a completed content script: `{resolve: value}` or
`{reject: value}`; an absent field is `vUndefined`. -/
structure Outcome where
  resolve : JSVal := .vUndefined
  reject : JSVal := .vUndefined
  deriving DecidableEq, Repr

/-- The `{reject}` record returned by `waitForNewPage`. -/
structure PageReject where
  reject : JSVal
  deriving DecidableEq, Repr

/-- One collaborator call made by a handler, in trace order. `delayStart ms`
records the start of the `delay(timeoutMs)` timer of the `Promise.race`. -/
inductive Event where
  | hasTab (id : String)
  | navigate (id : String) (url : String)
  | waitForNewContent (id : String)
  | runContentScript (id : String) (code : String) (arg : JSVal) (metadata : Metadata)
  | delayStart (ms : ℚ)
  deriving DecidableEq, Repr

/-- The tab-manager collaborator, as an oracle. `runContentScript` takes the
index of the call within the current handler invocation (0 for the first
call, so that retries can observe fresh results) besides the arguments the
source passes; `newContentBeforeTimeout` decides the `Promise.race` of
`waitForNewPage`: `true` iff the `waitForNewContent` signal settles before
the `delay(timeoutMs)` timer. -/
structure TabManager where
  hasTab : String → Bool
  navigateTab : String → String → Except ScriptError JSVal
  runContentScript : Nat → String → String → JSVal → Metadata → Except ScriptError Outcome
  newContentBeforeTimeout : Bool

/-- `ALLOWED_URL_REGEXP.test url` for `/^https?:\/\//`. -/
def ALLOWED_URL_REGEXP_test (u : String) : Bool :=
  u.startsWith "http://" || u.startsWith "https://"

/-- `navigateTab({id, url})` from the source: validate `id` (string and
`hasTab`), validate `url` (string matching the regexp), then delegate to
`tabManager.navigateTab(id, url)` and return its result. -/
def navigateTab (tm : TabManager) (id url : JSVal) :
    Except ScriptError JSVal × List Event :=
  match id with
  | .vStr s =>
    if tm.hasTab s then
      match url with
      | .vStr u =>
        if ALLOWED_URL_REGEXP_test u then
          (tm.navigateTab s u, [.hasTab s, .navigate s u])
        else
          (.error (.illegalArgument "tabs.navigate(): `url` argument must be an absolute HTTP URL"),
           [.hasTab s])
      | _ =>
        (.error (.illegalArgument "tabs.navigate(): `url` argument must be an absolute HTTP URL"),
         [.hasTab s])
    else
      (.error (.illegalArgument "tabs.navigate(): invalid argument `id`"), [.hasTab s])
  | _ => (.error (.illegalArgument "tabs.navigate(): invalid argument `id`"), [])

/-- `run({id, code, arg})` from the source: validate `id` and `code`, stamp
`metadata = {runBeginTime: Date.now()}`, execute once, and return the
outcome or propagate any error unmodified. -/
def run (tm : TabManager) (id code arg : JSVal) (now : Nat → Int) :
    Except ScriptError Outcome × List Event :=
  match id with
  | .vStr s =>
    if tm.hasTab s then
      match code with
      | .vStr c =>
        let metadata : Metadata := { runBeginTime := some (now 0) }
        (tm.runContentScript 0 s c arg metadata,
         [.hasTab s, .runContentScript s c arg metadata])
      | _ => (.error (.illegalArgument "tabs.run(): invalid argument `code`"), [.hasTab s])
    else
      (.error (.illegalArgument "tabs.run(): invalid argument `id`"), [.hasTab s])
  | _ => (.error (.illegalArgument "tabs.run(): invalid argument `id`"), [])

/-- `waitForNewPage({id, code, arg, timeoutMs})` from the source. The
validation messages say `tabs.run()` exactly as in the source. After
validation: stamp `metadata`, obtain `waitForNewContentPromise`, run the
script; a truthy `reject` returns `{reject}` at once; an error whose name
is not `CONTENT_SCRIPT_ABORTED_ERROR` propagates; otherwise race the
new-content promise against `delay(timeoutMs)` — the timer rejecting with
`newPageWaitTimeoutError` reporting `timeoutMs / 1000` seconds — and return
`{reject: null}` when the new content wins. -/
def waitForNewPage (tm : TabManager) (id code arg : JSVal) (timeoutMs : ℚ)
    (now : Nat → Int) : Except ScriptError PageReject × List Event :=
  match id with
  | .vStr s =>
    if tm.hasTab s then
      match code with
      | .vStr c =>
        let metadata : Metadata := { runBeginTime := some (now 0) }
        let pre : List Event :=
          [.hasTab s, .waitForNewContent s, .runContentScript s c arg metadata]
        let race : Except ScriptError PageReject × List Event :=
          if tm.newContentBeforeTimeout then
            (.ok { reject := .vNull }, pre ++ [.delayStart timeoutMs])
          else
            (.error (.newPageWaitTimeout (timeoutMs / 1000)),
             pre ++ [.delayStart timeoutMs])
        match tm.runContentScript 0 s c arg metadata with
        | .ok outcome =>
          if outcome.reject.truthy then (.ok { reject := outcome.reject }, pre)
          else race
        | .error e =>
          if e.name = CONTENT_SCRIPT_ABORTED_ERROR then race
          else (.error e, pre)
      | _ => (.error (.illegalArgument "tabs.run(): invalid argument `code`"), [.hasTab s])
    else
      (.error (.illegalArgument "tabs.run(): invalid argument `id`"), [.hasTab s])
  | _ => (.error (.illegalArgument "tabs.run(): invalid argument `id`"), [])

/-- The metadata stamped by attempt `n` of `wait`:
`Object.assign({attemptNumber, runBeginTime: Date.now()}, waitMetadata)`.
`Date.now()` call 0 of the invocation produced `waitBeginTime`, and each
attempt makes exactly one further call, so attempt `n` observes `now (n+1)`. -/
def waitAttemptMetadata (now : Nat → Int) (waitMeta : Metadata) (n : Nat) : Metadata :=
  { attemptNumber := some n, runBeginTime := some (now (n + 1)),
    waitBeginTime := waitMeta.waitBeginTime }

/-- The recursive `attempt(attemptNumber)` of `wait`, with explicit fuel:
`none` means the retry loop is still running after `fuel` attempts. On each
attempt the script runs once; an error named `CONTENT_SCRIPT_ABORTED_ERROR`
retries with `attemptNumber + 1`, any other error propagates. -/
def attempt (tm : TabManager) (s c : String) (arg : JSVal) (waitMeta : Metadata)
    (now : Nat → Int) : Nat → Nat → Option (Except ScriptError Outcome × List Event)
  | 0, _ => none
  | fuel + 1, attemptNumber =>
    let metadata := waitAttemptMetadata now waitMeta attemptNumber
    match tm.runContentScript attemptNumber s c arg metadata with
    | .ok outcome => some (.ok outcome, [.runContentScript s c arg metadata])
    | .error e =>
      if e.name = CONTENT_SCRIPT_ABORTED_ERROR then
        match attempt tm s c arg waitMeta now fuel (attemptNumber + 1) with
        | none => none
        | some (r, tr) => some (r, .runContentScript s c arg metadata :: tr)
      else
        some (.error e, [.runContentScript s c arg metadata])

/-- `wait({id, code, arg})` from the source: validate `id` and `code`, freeze
`waitMetadata = {waitBeginTime: Date.now()}`, then `attempt(0)`. -/
def wait (tm : TabManager) (id code arg : JSVal) (now : Nat → Int) (fuel : Nat) :
    Option (Except ScriptError Outcome × List Event) :=
  match id with
  | .vStr s =>
    if tm.hasTab s then
      match code with
      | .vStr c =>
        let waitMeta : Metadata := { waitBeginTime := some (now 0) }
        match attempt tm s c arg waitMeta now fuel 0 with
        | none => none
        | some (r, tr) => some (r, .hasTab s :: tr)
      | _ => some (.error (.illegalArgument "tabs.wait(): invalid argument `code`"), [.hasTab s])
    else
      some (.error (.illegalArgument "tabs.wait(): invalid argument `id`"), [.hasTab s])
  | _ => some (.error (.illegalArgument "tabs.wait(): invalid argument `id`"), [])

/-- Whether a `runContentScript` result is a failure carrying the
distinguished aborted-execution name. -/
def isAbortResult : Except ScriptError Outcome → Bool
  | .error e => e.name = CONTENT_SCRIPT_ABORTED_ERROR
  | .ok _ => false

/-- C3: if the script execution of `waitForNewPage` succeeds with a truthy
`reject` value, the call returns `{reject: value}` at once: the trace stops
at the execution call (no `delay` timer, no dependence on whether new
content ever arrives), and the returned record carries only the `reject`
field — never a `resolve`. -/
theorem waitForNewPage_truthy_reject_short_circuits
    (tm : TabManager) (s c : String) (arg : JSVal) (timeoutMs : ℚ)
    (now : Nat → Int) (outcome : Outcome)
    (hTab : tm.hasTab s = true)
    (hRun : tm.runContentScript 0 s c arg { runBeginTime := some (now 0) } = .ok outcome)
    (hRej : outcome.reject.truthy = true) :
    waitForNewPage tm (.vStr s) (.vStr c) arg timeoutMs now =
      (.ok { reject := outcome.reject },
       [.hasTab s, .waitForNewContent s,
        .runContentScript s c arg { runBeginTime := some (now 0) }]) := by
  simp [waitForNewPage, hTab, hRun, hRej]

/-- C3 witness. -/
theorem waitForNewPage_truthy_reject_short_circuits_witness :
    waitForNewPage
        { hasTab := fun _ => true, navigateTab := fun _ _ => .ok .vNull,
          runContentScript := fun _ _ _ _ _ => .ok { reject := .vStr "x" },
          newContentBeforeTimeout := false }
        (.vStr "t") (.vStr "c") .vNull 1000 (fun _ => 7) =
      (.ok { reject := .vStr "x" },
       [.hasTab "t", .waitForNewContent "t",
        .runContentScript "t" "c" .vNull { runBeginTime := some 7 }]) :=
  waitForNewPage_truthy_reject_short_circuits _ "t" "c" .vNull 1000 (fun _ => 7)
    { reject := .vStr "x" } rfl rfl rfl

/-- C4: if the script execution of `waitForNewPage` fails with the
aborted-execution error, the error is swallowed and, when the new-content
signal wins the race, the call returns `{reject: null}`; any execution
error with a different name propagates at once, unmodified, without the
race ever being started. -/
theorem waitForNewPage_abort_swallowed_other_errors_propagate :
    (∀ (tm : TabManager) (s c : String) (arg : JSVal) (timeoutMs : ℚ)
       (now : Nat → Int) (e : ScriptError),
      tm.hasTab s = true →
      tm.runContentScript 0 s c arg { runBeginTime := some (now 0) } = .error e →
      e.name = CONTENT_SCRIPT_ABORTED_ERROR →
      tm.newContentBeforeTimeout = true →
      waitForNewPage tm (.vStr s) (.vStr c) arg timeoutMs now =
        (.ok { reject := .vNull },
         [.hasTab s, .waitForNewContent s,
          .runContentScript s c arg { runBeginTime := some (now 0) },
          .delayStart timeoutMs])) ∧
    (∀ (tm : TabManager) (s c : String) (arg : JSVal) (timeoutMs : ℚ)
       (now : Nat → Int) (e : ScriptError),
      tm.hasTab s = true →
      tm.runContentScript 0 s c arg { runBeginTime := some (now 0) } = .error e →
      e.name ≠ CONTENT_SCRIPT_ABORTED_ERROR →
      waitForNewPage tm (.vStr s) (.vStr c) arg timeoutMs now =
        (.error e,
         [.hasTab s, .waitForNewContent s,
          .runContentScript s c arg { runBeginTime := some (now 0) }])) := by
  constructor
  · intro tm s c arg timeoutMs now e hTab hRun hName hRace
    simp [waitForNewPage, hTab, hRun, hName, hRace]
  · intro tm s c arg timeoutMs now e hTab hRun hName
    simp [waitForNewPage, hTab, hRun, hName]

/-- C4 witness: both conjuncts applied at concrete inputs — an aborted
execution with the new content arriving in time, and a `TypeError`. -/
theorem waitForNewPage_abort_swallowed_other_errors_propagate_witness :
    (waitForNewPage
        { hasTab := fun _ => true, navigateTab := fun _ _ => .ok .vNull,
          runContentScript := fun _ _ _ _ _ => .error (.raised CONTENT_SCRIPT_ABORTED_ERROR 0),
          newContentBeforeTimeout := true }
        (.vStr "t") (.vStr "c") .vNull 2000 (fun _ => 3) =
      (.ok { reject := .vNull },
       [.hasTab "t", .waitForNewContent "t",
        .runContentScript "t" "c" .vNull { runBeginTime := some 3 },
        .delayStart 2000])) ∧
    (waitForNewPage
        { hasTab := fun _ => true, navigateTab := fun _ _ => .ok .vNull,
          runContentScript := fun _ _ _ _ _ => .error (.raised "TypeError" 5),
          newContentBeforeTimeout := true }
        (.vStr "t") (.vStr "c") .vNull 2000 (fun _ => 3) =
      (.error (.raised "TypeError" 5),
       [.hasTab "t", .waitForNewContent "t",
        .runContentScript "t" "c" .vNull { runBeginTime := some 3 }])) :=
  ⟨waitForNewPage_abort_swallowed_other_errors_propagate.1 _ "t" "c" .vNull 2000
      (fun _ => 3) _ rfl rfl rfl rfl,
   waitForNewPage_abort_swallowed_other_errors_propagate.2 _ "t" "c" .vNull 2000
      (fun _ => 3) _ rfl rfl (by decide)⟩

/-- C2: when the script execution step of `waitForNewPage` completes without
a truthy `reject` outcome (a non-rejecting success, or an aborted
execution, which is swallowed), the `delay(timeoutMs)` timer is started
only after the execution call, as the trace order shows; and if the
new-content signal does not win the race, the call fails with
`NewPageWaitTimeout` reporting `timeoutMs / 1000` seconds. -/
theorem waitForNewPage_timeout_after_execution
    (tm : TabManager) (s c : String) (arg : JSVal) (timeoutMs : ℚ)
    (now : Nat → Int)
    (hTab : tm.hasTab s = true)
    (hRun : (∃ o, tm.runContentScript 0 s c arg { runBeginTime := some (now 0) } = .ok o ∧
               o.reject.truthy = false) ∨
            (∃ e, tm.runContentScript 0 s c arg { runBeginTime := some (now 0) } = .error e ∧
               e.name = CONTENT_SCRIPT_ABORTED_ERROR)) :
    (waitForNewPage tm (.vStr s) (.vStr c) arg timeoutMs now).2 =
      [.hasTab s, .waitForNewContent s,
       .runContentScript s c arg { runBeginTime := some (now 0) },
       .delayStart timeoutMs] ∧
    (tm.newContentBeforeTimeout = false →
      (waitForNewPage tm (.vStr s) (.vStr c) arg timeoutMs now).1 =
        .error (.newPageWaitTimeout (timeoutMs / 1000))) := by
  rcases hRun with ⟨o, hRun, hRej⟩ | ⟨e, hRun, hName⟩
  · constructor
    · by_cases hb : tm.newContentBeforeTimeout <;>
        simp [waitForNewPage, hTab, hRun, hRej, hb]
    · intro hb; simp [waitForNewPage, hTab, hRun, hRej, hb]
  · constructor
    · by_cases hb : tm.newContentBeforeTimeout <;>
        simp [waitForNewPage, hTab, hRun, hName, hb]
    · intro hb; simp [waitForNewPage, hTab, hRun, hName, hb]

/-- C2 witness: a script resolving normally, no new content in time;
`timeoutMs = 2500` reports `2.5` seconds. -/
theorem waitForNewPage_timeout_after_execution_witness :
    ((waitForNewPage
        { hasTab := fun _ => true, navigateTab := fun _ _ => .ok .vNull,
          runContentScript := fun _ _ _ _ _ => .ok { resolve := .vNum 1 },
          newContentBeforeTimeout := false }
        (.vStr "t") (.vStr "c") .vNull 2500 (fun _ => 0)).2 =
      [.hasTab "t", .waitForNewContent "t",
       .runContentScript "t" "c" .vNull { runBeginTime := some 0 },
       .delayStart 2500] ∧
     (false = false →
      (waitForNewPage
        { hasTab := fun _ => true, navigateTab := fun _ _ => .ok .vNull,
          runContentScript := fun _ _ _ _ _ => .ok { resolve := .vNum 1 },
          newContentBeforeTimeout := false }
        (.vStr "t") (.vStr "c") .vNull 2500 (fun _ => 0)).1 =
        .error (.newPageWaitTimeout (2500 / 1000)))) :=
  waitForNewPage_timeout_after_execution _ "t" "c" .vNull 2500 (fun _ => 0) rfl
    (.inl ⟨{ resolve := .vNum 1 }, rfl, rfl⟩)

/-- C5: in every `waitForNewPage` call that passes validation (string `id`
known to the tab manager, string `code`), the trace begins with the
liveness check, then the `waitForNewContent` observation, then the
content-script execution: the observation is established strictly before
execution starts, whatever the execution result. -/
theorem waitForNewPage_observes_before_running
    (tm : TabManager) (s c : String) (arg : JSVal) (timeoutMs : ℚ)
    (now : Nat → Int) (hTab : tm.hasTab s = true) :
    ∃ rest, (waitForNewPage tm (.vStr s) (.vStr c) arg timeoutMs now).2 =
      .hasTab s :: .waitForNewContent s ::
        .runContentScript s c arg { runBeginTime := some (now 0) } :: rest := by
  cases hRun : tm.runContentScript 0 s c arg { runBeginTime := some (now 0) } with
  | ok o =>
    by_cases hr : o.reject.truthy
    · exact ⟨[], by simp [waitForNewPage, hTab, hRun, hr]⟩
    · exact ⟨[.delayStart timeoutMs], by
        by_cases hb : tm.newContentBeforeTimeout <;>
          simp [waitForNewPage, hTab, hRun, hr, hb]⟩
  | error e =>
    by_cases hn : e.name = CONTENT_SCRIPT_ABORTED_ERROR
    · exact ⟨[.delayStart timeoutMs], by
        by_cases hb : tm.newContentBeforeTimeout <;>
          simp [waitForNewPage, hTab, hRun, hn, hb]⟩
    · exact ⟨[], by simp [waitForNewPage, hTab, hRun, hn]⟩

/-- C5 witness. -/
theorem waitForNewPage_observes_before_running_witness :
    ∃ rest, (waitForNewPage
        { hasTab := fun _ => true, navigateTab := fun _ _ => .ok .vNull,
          runContentScript := fun _ _ _ _ _ => .ok { resolve := .vNum 1 },
          newContentBeforeTimeout := true }
        (.vStr "t") (.vStr "c") .vNull 1000 (fun _ => 0)).2 =
      .hasTab "t" :: .waitForNewContent "t" ::
        .runContentScript "t" "c" .vNull { runBeginTime := some 0 } :: rest :=
  waitForNewPage_observes_before_running _ "t" "c" .vNull 1000 (fun _ => 0) rfl

/-- C10: if the script execution of `waitForNewPage` succeeds with a falsy
`reject` field (for example `{reject: 0}`, `{reject: false}` or
`{reject: ''}`), the outcome is not returned at once: the call falls
through to the race, returning `{reject: null}` when the new content wins
and failing with `NewPageWaitTimeout` reporting `timeoutMs / 1000` seconds
when the timer wins. -/
theorem waitForNewPage_falsy_reject_falls_through
    (tm : TabManager) (s c : String) (arg : JSVal) (timeoutMs : ℚ)
    (now : Nat → Int) (outcome : Outcome)
    (hTab : tm.hasTab s = true)
    (hRun : tm.runContentScript 0 s c arg { runBeginTime := some (now 0) } = .ok outcome)
    (hRej : outcome.reject.truthy = false) :
    (waitForNewPage tm (.vStr s) (.vStr c) arg timeoutMs now).2 =
      [.hasTab s, .waitForNewContent s,
       .runContentScript s c arg { runBeginTime := some (now 0) },
       .delayStart timeoutMs] ∧
    (tm.newContentBeforeTimeout = true →
      (waitForNewPage tm (.vStr s) (.vStr c) arg timeoutMs now).1 =
        .ok { reject := .vNull }) ∧
    (tm.newContentBeforeTimeout = false →
      (waitForNewPage tm (.vStr s) (.vStr c) arg timeoutMs now).1 =
        .error (.newPageWaitTimeout (timeoutMs / 1000))) := by
  refine ⟨?_, fun hb => ?_, fun hb => ?_⟩
  · by_cases hb : tm.newContentBeforeTimeout <;>
      simp [waitForNewPage, hTab, hRun, hRej, hb]
  · simp [waitForNewPage, hTab, hRun, hRej, hb]
  · simp [waitForNewPage, hTab, hRun, hRej, hb]

/-- C10 witness: `{reject: 0}` — present but falsy — with new content
arriving in time. -/
theorem waitForNewPage_falsy_reject_falls_through_witness :
    ((waitForNewPage
        { hasTab := fun _ => true, navigateTab := fun _ _ => .ok .vNull,
          runContentScript := fun _ _ _ _ _ => .ok { reject := .vNum 0 },
          newContentBeforeTimeout := true }
        (.vStr "t") (.vStr "c") .vNull 1000 (fun _ => 0)).2 =
      [.hasTab "t", .waitForNewContent "t",
       .runContentScript "t" "c" .vNull { runBeginTime := some 0 },
       .delayStart 1000]) ∧
    (true = true →
      (waitForNewPage
        { hasTab := fun _ => true, navigateTab := fun _ _ => .ok .vNull,
          runContentScript := fun _ _ _ _ _ => .ok { reject := .vNum 0 },
          newContentBeforeTimeout := true }
        (.vStr "t") (.vStr "c") .vNull 1000 (fun _ => 0)).1 =
        .ok { reject := .vNull }) ∧
    (true = false →
      (waitForNewPage
        { hasTab := fun _ => true, navigateTab := fun _ _ => .ok .vNull,
          runContentScript := fun _ _ _ _ _ => .ok { reject := .vNum 0 },
          newContentBeforeTimeout := true }
        (.vStr "t") (.vStr "c") .vNull 1000 (fun _ => 0)).1 =
        .error (.newPageWaitTimeout (1000 / 1000))) :=
  waitForNewPage_falsy_reject_falls_through _ "t" "c" .vNull 1000 (fun _ => 0)
    { reject := .vNum 0 } rfl rfl rfl

/-- C9: with a valid `id`, `navigateTab` fails with `IllegalArgument` when
`url` is not a string or does not match `^https?://`, without any
navigation call; and for a matching string `url` it delegates to
`tabManager.navigateTab(id, url)` and returns its result unmodified. -/
theorem navigateTab_validates_url_and_delegates
    (tm : TabManager) (s : String) (url : JSVal)
    (hTab : tm.hasTab s = true) :
    ((∀ u, url = .vStr u → ALLOWED_URL_REGEXP_test u = false) →
      navigateTab tm (.vStr s) url =
        (.error (.illegalArgument "tabs.navigate(): `url` argument must be an absolute HTTP URL"),
         [.hasTab s])) ∧
    (∀ u, url = .vStr u → ALLOWED_URL_REGEXP_test u = true →
      navigateTab tm (.vStr s) url = (tm.navigateTab s u, [.hasTab s, .navigate s u])) := by
  constructor
  · intro hBad
    cases url with
    | vStr u => simp [navigateTab, hTab, hBad u rfl]
    | vUndefined => simp [navigateTab, hTab]
    | vNull => simp [navigateTab, hTab]
    | vBool b => simp [navigateTab, hTab]
    | vNum n => simp [navigateTab, hTab]
  · rintro u rfl hOk
    simp [navigateTab, hTab, hOk]

/-- C9 witness: a rejected relative URL and an accepted absolute one. -/
theorem navigateTab_validates_url_and_delegates_witness :
    ((∀ u, JSVal.vStr "ftp://x" = JSVal.vStr u → ALLOWED_URL_REGEXP_test u = false) →
      navigateTab
        { hasTab := fun _ => true, navigateTab := fun _ _ => .ok (.vStr "done"),
          runContentScript := fun _ _ _ _ _ => .ok {},
          newContentBeforeTimeout := true }
        (.vStr "t") (.vStr "ftp://x") =
        (.error (.illegalArgument "tabs.navigate(): `url` argument must be an absolute HTTP URL"),
         [.hasTab "t"])) ∧
    (∀ u, JSVal.vStr "ftp://x" = JSVal.vStr u → ALLOWED_URL_REGEXP_test u = true →
      navigateTab
        { hasTab := fun _ => true, navigateTab := fun _ _ => .ok (.vStr "done"),
          runContentScript := fun _ _ _ _ _ => .ok {},
          newContentBeforeTimeout := true }
        (.vStr "t") (.vStr "ftp://x") =
        ((TabManager.mk (fun _ => true) (fun _ _ => .ok (.vStr "done"))
            (fun _ _ _ _ _ => .ok {}) true).navigateTab "t" u,
         [.hasTab "t", .navigate "t" u])) :=
  navigateTab_validates_url_and_delegates _ "t" (.vStr "ftp://x") rfl

/-- An abort-shaped result is an `error` carrying the distinguished name. -/
lemma isAbortResult_error (r : Except ScriptError Outcome) (h : isAbortResult r = true) :
    ∃ e, r = .error e ∧ e.name = CONTENT_SCRIPT_ABORTED_ERROR := by
  cases r with
  | ok o => simp [isAbortResult] at h
  | error e => exact ⟨e, rfl, by simpa [isAbortResult] using h⟩

/-- The execution events of a retry chain: attempts `j`, `j+1`, …, `j+k`. -/
def attemptTrace (ev : Nat → Event) : Nat → Nat → List Event
  | j, 0 => [ev j]
  | j, k + 1 => ev j :: attemptTrace ev (j + 1) k

lemma attemptTrace_eq_range_map (ev : Nat → Event) :
    ∀ (k j : Nat), attemptTrace ev j k = (List.range (k + 1)).map (fun n => ev (j + n)) := by
  intro k
  induction k with
  | zero => intro j; simp [attemptTrace, List.range_succ]
  | succ k ih =>
    intro j
    have hcomp : (List.range (k + 1)).map ((fun n => ev (j + n)) ∘ Nat.succ) =
        (List.range (k + 1)).map (fun n => ev (j + 1 + n)) :=
      List.map_congr_left fun n _ => by
        simp only [Function.comp_apply]
        exact congrArg ev (by omega)
    calc attemptTrace ev j (k + 1) = ev j :: attemptTrace ev (j + 1) k := rfl
      _ = ev j :: (List.range (k + 1)).map (fun n => ev (j + 1 + n)) := by rw [ih]
      _ = (List.range (k + 1 + 1)).map (fun n => ev (j + n)) := by
          conv_rhs => rw [List.range_succ_eq_map]
          rw [List.map_cons, List.map_map, hcomp]
          simp

/-- If attempts `j, …, j+k-1` abort and attempt `j+k` succeeds with
`outcome`, then with more than `k` units of fuel the retry loop returns
`outcome` with exactly the `k+1` execution events, each stamped with its
own attempt number. -/
lemma attempt_aborts_then_ok (tm : TabManager) (s c : String) (arg : JSVal)
    (waitMeta : Metadata) (now : Nat → Int) (outcome : Outcome) :
    ∀ (k fuel j : Nat),
      (∀ n, n < k → ∀ md, isAbortResult (tm.runContentScript (j + n) s c arg md) = true) →
      (∀ md, tm.runContentScript (j + k) s c arg md = .ok outcome) →
      k < fuel →
      attempt tm s c arg waitMeta now fuel j =
        some (.ok outcome,
          attemptTrace
            (fun n => .runContentScript s c arg (waitAttemptMetadata now waitMeta n)) j k) := by
  intro k
  induction k with
  | zero =>
    intro fuel j hAbort hSucc hFuel
    obtain ⟨f, rfl⟩ : ∃ f, fuel = f + 1 := ⟨fuel - 1, by omega⟩
    simp only [Nat.add_zero] at hSucc
    simp [attempt, attemptTrace, hSucc]
  | succ k ih =>
    intro fuel j hAbort hSucc hFuel
    obtain ⟨f, rfl⟩ : ∃ f, fuel = f + 1 := ⟨fuel - 1, by omega⟩
    obtain ⟨e, hE, hName⟩ :=
      isAbortResult_error _
        (by simpa using hAbort 0 (Nat.succ_pos k) (waitAttemptMetadata now waitMeta j))
    have hIH := ih f (j + 1)
      (fun n hn md => by
        have h := hAbort (n + 1) (by omega) md
        have hidx : j + 1 + n = j + (n + 1) := by omega
        rwa [hidx])
      (fun md => by
        have h := hSucc md
        have hidx : j + 1 + k = j + (k + 1) := by omega
        rwa [hidx])
      (by omega)
    simp [attempt, attemptTrace, hE, hName, hIH]

/-- If every attempt aborts, the retry loop never returns, whatever the fuel. -/
lemma attempt_always_abort_none (tm : TabManager) (s c : String) (arg : JSVal)
    (waitMeta : Metadata) (now : Nat → Int)
    (hAbort : ∀ n md, isAbortResult (tm.runContentScript n s c arg md) = true) :
    ∀ (fuel j : Nat), attempt tm s c arg waitMeta now fuel j = none := by
  intro fuel
  induction fuel with
  | zero => intro j; simp [attempt]
  | succ f ih =>
    intro j
    obtain ⟨e, hE, hName⟩ :=
      isAbortResult_error _ (hAbort j (waitAttemptMetadata now waitMeta j))
    simp [attempt, hE, hName, ih (j + 1)]

/-- C1: while execution attempts of `wait` fail with aborted-execution
errors the loop retries without bound (with only aborts it never returns,
for every fuel); and when `k` aborts are followed by a success, the call
terminates with that success, having made exactly `k+1` execution calls
whose metadata carries `attemptNumber = n` on attempt `n` (0-based, step 1)
and the `waitBeginTime` fixed by the `Date.now()` call made before the
first attempt. -/
theorem wait_retry_abort_semantics :
    (∀ (tm : TabManager) (s c : String) (arg : JSVal) (now : Nat → Int)
       (k fuel : Nat) (outcome : Outcome),
      tm.hasTab s = true →
      (∀ n, n < k → ∀ md, isAbortResult (tm.runContentScript n s c arg md) = true) →
      (∀ md, tm.runContentScript k s c arg md = .ok outcome) →
      k < fuel →
      wait tm (.vStr s) (.vStr c) arg now fuel =
        some (.ok outcome,
          .hasTab s ::
            (List.range (k + 1)).map (fun n =>
              .runContentScript s c arg
                { runBeginTime := some (now (n + 1)),
                  waitBeginTime := some (now 0),
                  attemptNumber := some n }))) ∧
    (∀ (tm : TabManager) (s c : String) (arg : JSVal) (now : Nat → Int) (fuel : Nat),
      tm.hasTab s = true →
      (∀ n md, isAbortResult (tm.runContentScript n s c arg md) = true) →
      wait tm (.vStr s) (.vStr c) arg now fuel = none) := by
  constructor
  · intro tm s c arg now k fuel outcome hTab hAbort hSucc hFuel
    have h := attempt_aborts_then_ok tm s c arg { waitBeginTime := some (now 0) } now
      outcome k fuel 0
      (fun n hn md => by simpa using hAbort n hn md)
      (fun md => by simpa using hSucc md) hFuel
    rw [attemptTrace_eq_range_map] at h
    simp only [Nat.zero_add] at h
    simp [wait, hTab, h, waitAttemptMetadata]
  · intro tm s c arg now fuel hTab hAbort
    simp [wait, hTab,
      attempt_always_abort_none tm s c arg { waitBeginTime := some (now 0) } now hAbort fuel 0]

/-- C1 witness: three aborts then a success (fuel 10): the final attempt's
metadata carries `attemptNumber = 3` and the `waitBeginTime` observed at
`Date.now()` call 0; always-aborting execution never returns. -/
theorem wait_retry_abort_semantics_witness :
    (wait
        { hasTab := fun _ => true, navigateTab := fun _ _ => .ok .vNull,
          runContentScript := fun n _ _ _ _ =>
            if n < 3 then .error (.raised CONTENT_SCRIPT_ABORTED_ERROR n)
            else .ok { resolve := .vStr "done" },
          newContentBeforeTimeout := true }
        (.vStr "t") (.vStr "c") .vNull (fun k => (100 + k : Int)) 10 =
      some (.ok { resolve := .vStr "done" },
        .hasTab "t" ::
          (List.range 4).map (fun n =>
            .runContentScript "t" "c" .vNull
              { runBeginTime := some ((100 + (n + 1) : Nat) : Int),
                waitBeginTime := some ((100 : Nat) : Int),
                attemptNumber := some n }))) ∧
    (wait
        { hasTab := fun _ => true, navigateTab := fun _ _ => .ok .vNull,
          runContentScript := fun n _ _ _ _ => .error (.raised CONTENT_SCRIPT_ABORTED_ERROR n),
          newContentBeforeTimeout := true }
        (.vStr "t") (.vStr "c") .vNull (fun k => (100 + k : Int)) 10 = none) :=
  ⟨wait_retry_abort_semantics.1 _ "t" "c" .vNull (fun k => (100 + k : Nat)) 3 10 _ rfl
      (fun n hn md => by simp [isAbortResult, ScriptError.name, hn])
      (fun md => by simp) (by decide),
   wait_retry_abort_semantics.2 _ "t" "c" .vNull (fun k => (100 + k : Nat)) 10 rfl
      (fun n md => by simp [isAbortResult, ScriptError.name])⟩

/-- If attempts `j, …, j+k-1` abort and attempt `j+k` fails with an error
whose name is not the distinguished abort name, the retry loop returns
that error with exactly the `k+1` execution events made so far. -/
lemma attempt_aborts_then_error (tm : TabManager) (s c : String) (arg : JSVal)
    (waitMeta : Metadata) (now : Nat → Int) (e : ScriptError)
    (hName : e.name ≠ CONTENT_SCRIPT_ABORTED_ERROR) :
    ∀ (k fuel j : Nat),
      (∀ n, n < k → ∀ md, isAbortResult (tm.runContentScript (j + n) s c arg md) = true) →
      (∀ md, tm.runContentScript (j + k) s c arg md = .error e) →
      k < fuel →
      attempt tm s c arg waitMeta now fuel j =
        some (.error e,
          attemptTrace
            (fun n => .runContentScript s c arg (waitAttemptMetadata now waitMeta n)) j k) := by
  intro k
  induction k with
  | zero =>
    intro fuel j hAbort hErr hFuel
    obtain ⟨f, rfl⟩ : ∃ f, fuel = f + 1 := ⟨fuel - 1, by omega⟩
    simp only [Nat.add_zero] at hErr
    simp [attempt, attemptTrace, hErr, hName]
  | succ k ih =>
    intro fuel j hAbort hErr hFuel
    obtain ⟨f, rfl⟩ : ∃ f, fuel = f + 1 := ⟨fuel - 1, by omega⟩
    obtain ⟨e', hE, hEName⟩ :=
      isAbortResult_error _
        (by simpa using hAbort 0 (Nat.succ_pos k) (waitAttemptMetadata now waitMeta j))
    have hIH := ih f (j + 1)
      (fun n hn md => by
        have h := hAbort (n + 1) (by omega) md
        have hidx : j + 1 + n = j + (n + 1) := by omega
        rwa [hidx])
      (fun md => by
        have h := hErr md
        have hidx : j + 1 + k = j + (k + 1) := by omega
        rwa [hidx])
      (by omega)
    simp [attempt, attemptTrace, hE, hEName, hIH]

/-- C6: whenever an execution attempt of `wait` — the first, or attempt `k`
after `k` aborted attempts — fails with an error whose name is not
`CONTENT_SCRIPT_ABORTED_ERROR`, that error is the call's result,
unmodified, and the trace shows exactly the `k+1` execution attempts made
so far: no further retry attempt is made. -/
theorem wait_propagates_non_abort
    (tm : TabManager) (s c : String) (arg : JSVal) (now : Nat → Int)
    (k fuel : Nat) (e : ScriptError)
    (hTab : tm.hasTab s = true)
    (hAbort : ∀ n, n < k → ∀ md, isAbortResult (tm.runContentScript n s c arg md) = true)
    (hErr : ∀ md, tm.runContentScript k s c arg md = .error e)
    (hName : e.name ≠ CONTENT_SCRIPT_ABORTED_ERROR)
    (hFuel : k < fuel) :
    wait tm (.vStr s) (.vStr c) arg now fuel =
      some (.error e,
        .hasTab s ::
          (List.range (k + 1)).map (fun n =>
            .runContentScript s c arg
              { runBeginTime := some (now (n + 1)),
                waitBeginTime := some (now 0),
                attemptNumber := some n })) := by
  have h := attempt_aborts_then_error tm s c arg { waitBeginTime := some (now 0) } now e
    hName k fuel 0
    (fun n hn md => by simpa using hAbort n hn md)
    (fun md => by simpa using hErr md) hFuel
  rw [attemptTrace_eq_range_map] at h
  simp only [Nat.zero_add] at h
  simp [wait, hTab, h, waitAttemptMetadata]

/-- C6 witness: two aborted attempts, then a `TypeError` on attempt 2
(fuel 10): exactly three execution events, the error propagated unmodified. -/
theorem wait_propagates_non_abort_witness :
    wait
        { hasTab := fun _ => true, navigateTab := fun _ _ => .ok .vNull,
          runContentScript := fun n _ _ _ _ =>
            if n < 2 then .error (.raised CONTENT_SCRIPT_ABORTED_ERROR n)
            else .error (.raised "TypeError" 9),
          newContentBeforeTimeout := true }
        (.vStr "t") (.vStr "c") .vNull (fun k => (k : Int)) 10 =
      some (.error (.raised "TypeError" 9),
        .hasTab "t" ::
          (List.range 3).map (fun n =>
            .runContentScript "t" "c" .vNull
              { runBeginTime := some ((n + 1 : Nat) : Int),
                waitBeginTime := some ((0 : Nat) : Int),
                attemptNumber := some n })) :=
  wait_propagates_non_abort _ "t" "c" .vNull (fun k => (k : Nat)) 2 10 _ rfl
    (fun n hn md => by simp [isAbortResult, ScriptError.name, hn])
    (fun md => by simp) (by decide) (by decide)

/-- A concrete tab manager that tracks no tabs, for concrete evaluations. -/
def tmEmpty : TabManager :=
  { hasTab := fun _ => false, navigateTab := fun _ _ => .ok .vNull,
    runContentScript := fun _ _ _ _ _ => .ok {}, newContentBeforeTimeout := true }

lemma navigateTab_invalid_id (tm : TabManager) (idv url : JSVal)
    (hInvalid : ∀ s, idv = .vStr s → tm.hasTab s = false) :
    (∃ m, (navigateTab tm idv url).1 = .error (.illegalArgument m)) ∧
    (∀ ev ∈ (navigateTab tm idv url).2, ∃ s, ev = Event.hasTab s) ∧
    ((∀ s, idv ≠ .vStr s) → (navigateTab tm idv url).2 = []) := by
  cases idv with
  | vStr s =>
    have h := hInvalid s rfl
    exact ⟨⟨"tabs.navigate(): invalid argument `id`", by simp [navigateTab, h]⟩,
      fun ev hev => ⟨s, by simpa [navigateTab, h] using hev⟩,
      fun hNot => absurd rfl (hNot s)⟩
  | vUndefined => exact ⟨⟨_, rfl⟩, fun ev hev => by simp [navigateTab] at hev, fun _ => rfl⟩
  | vNull => exact ⟨⟨_, rfl⟩, fun ev hev => by simp [navigateTab] at hev, fun _ => rfl⟩
  | vBool b => exact ⟨⟨_, rfl⟩, fun ev hev => by simp [navigateTab] at hev, fun _ => rfl⟩
  | vNum n => exact ⟨⟨_, rfl⟩, fun ev hev => by simp [navigateTab] at hev, fun _ => rfl⟩

lemma run_invalid_id (tm : TabManager) (idv code arg : JSVal) (now : Nat → Int)
    (hInvalid : ∀ s, idv = .vStr s → tm.hasTab s = false) :
    (∃ m, (run tm idv code arg now).1 = .error (.illegalArgument m)) ∧
    (∀ ev ∈ (run tm idv code arg now).2, ∃ s, ev = Event.hasTab s) ∧
    ((∀ s, idv ≠ .vStr s) → (run tm idv code arg now).2 = []) := by
  cases idv with
  | vStr s =>
    have h := hInvalid s rfl
    exact ⟨⟨"tabs.run(): invalid argument `id`", by simp [run, h]⟩,
      fun ev hev => ⟨s, by simpa [run, h] using hev⟩,
      fun hNot => absurd rfl (hNot s)⟩
  | vUndefined => exact ⟨⟨_, rfl⟩, fun ev hev => by simp [run] at hev, fun _ => rfl⟩
  | vNull => exact ⟨⟨_, rfl⟩, fun ev hev => by simp [run] at hev, fun _ => rfl⟩
  | vBool b => exact ⟨⟨_, rfl⟩, fun ev hev => by simp [run] at hev, fun _ => rfl⟩
  | vNum n => exact ⟨⟨_, rfl⟩, fun ev hev => by simp [run] at hev, fun _ => rfl⟩

lemma wait_invalid_id (tm : TabManager) (idv code arg : JSVal) (now : Nat → Int) (fuel : Nat)
    (hInvalid : ∀ s, idv = .vStr s → tm.hasTab s = false) :
    ∃ m tr, wait tm idv code arg now fuel = some (.error (.illegalArgument m), tr) ∧
      (∀ ev ∈ tr, ∃ s, ev = Event.hasTab s) ∧
      ((∀ s, idv ≠ .vStr s) → tr = []) := by
  cases idv with
  | vStr s =>
    have h := hInvalid s rfl
    exact ⟨"tabs.wait(): invalid argument `id`", [.hasTab s], by simp [wait, h],
      fun ev hev => ⟨s, by simpa using hev⟩, fun hNot => absurd rfl (hNot s)⟩
  | vUndefined => exact ⟨_, [], rfl, by simp, fun _ => rfl⟩
  | vNull => exact ⟨_, [], rfl, by simp, fun _ => rfl⟩
  | vBool b => exact ⟨_, [], rfl, by simp, fun _ => rfl⟩
  | vNum n => exact ⟨_, [], rfl, by simp, fun _ => rfl⟩

lemma waitForNewPage_invalid_id (tm : TabManager) (idv code arg : JSVal)
    (timeoutMs : ℚ) (now : Nat → Int)
    (hInvalid : ∀ s, idv = .vStr s → tm.hasTab s = false) :
    (∃ m, (waitForNewPage tm idv code arg timeoutMs now).1 = .error (.illegalArgument m)) ∧
    (∀ ev ∈ (waitForNewPage tm idv code arg timeoutMs now).2, ∃ s, ev = Event.hasTab s) ∧
    ((∀ s, idv ≠ .vStr s) → (waitForNewPage tm idv code arg timeoutMs now).2 = []) := by
  cases idv with
  | vStr s =>
    have h := hInvalid s rfl
    exact ⟨⟨"tabs.run(): invalid argument `id`", by simp [waitForNewPage, h]⟩,
      fun ev hev => ⟨s, by simpa [waitForNewPage, h] using hev⟩,
      fun hNot => absurd rfl (hNot s)⟩
  | vUndefined => exact ⟨⟨_, rfl⟩, fun ev hev => by simp [waitForNewPage] at hev, fun _ => rfl⟩
  | vNull => exact ⟨⟨_, rfl⟩, fun ev hev => by simp [waitForNewPage] at hev, fun _ => rfl⟩
  | vBool b => exact ⟨⟨_, rfl⟩, fun ev hev => by simp [waitForNewPage] at hev, fun _ => rfl⟩
  | vNum n => exact ⟨⟨_, rfl⟩, fun ev hev => by simp [waitForNewPage] at hev, fun _ => rfl⟩

/-- C7 counterexample: `tabs.navigate` called with the string id `"nope"`
that the tab manager does not report as live fails with `IllegalArgument`
as claimed, but a tab-manager method IS invoked: the trace is exactly the
`hasTab "nope"` liveness call, refuting "no tab-manager method is
invoked". -/
theorem invalid_string_id_invokes_hasTab :
    (navigateTab tmEmpty (.vStr "nope") (.vStr "http://a")).1 =
      .error (.illegalArgument "tabs.navigate(): invalid argument `id`") ∧
    (navigateTab tmEmpty (.vStr "nope") (.vStr "http://a")).2 = [.hasTab "nope"] :=
  ⟨rfl, rfl⟩

/-- C7 amended: for every command taking an id (`tabs.navigate`, `tabs.run`,
`tabs.wait`, `tabs.waitForNewPage`) and every invalid id (non-string, or a
string the tab manager does not report as live), the call fails with
`IllegalArgument` and invokes no tab-manager method other than the
`hasTab` liveness check itself — and none at all when the id is not a
string. -/
theorem invalid_id_rejected_hasTab_only
    (tm : TabManager) (idv url code arg : JSVal) (timeoutMs : ℚ)
    (now : Nat → Int) (fuel : Nat)
    (hInvalid : ∀ s, idv = .vStr s → tm.hasTab s = false) :
    ((∃ m, (navigateTab tm idv url).1 = .error (.illegalArgument m)) ∧
      (∀ ev ∈ (navigateTab tm idv url).2, ∃ s, ev = Event.hasTab s) ∧
      ((∀ s, idv ≠ .vStr s) → (navigateTab tm idv url).2 = [])) ∧
    ((∃ m, (run tm idv code arg now).1 = .error (.illegalArgument m)) ∧
      (∀ ev ∈ (run tm idv code arg now).2, ∃ s, ev = Event.hasTab s) ∧
      ((∀ s, idv ≠ .vStr s) → (run tm idv code arg now).2 = [])) ∧
    (∃ m tr, wait tm idv code arg now fuel = some (.error (.illegalArgument m), tr) ∧
      (∀ ev ∈ tr, ∃ s, ev = Event.hasTab s) ∧
      ((∀ s, idv ≠ .vStr s) → tr = [])) ∧
    ((∃ m, (waitForNewPage tm idv code arg timeoutMs now).1 = .error (.illegalArgument m)) ∧
      (∀ ev ∈ (waitForNewPage tm idv code arg timeoutMs now).2, ∃ s, ev = Event.hasTab s) ∧
      ((∀ s, idv ≠ .vStr s) → (waitForNewPage tm idv code arg timeoutMs now).2 = [])) :=
  ⟨navigateTab_invalid_id tm idv url hInvalid,
   run_invalid_id tm idv code arg now hInvalid,
   wait_invalid_id tm idv code arg now fuel hInvalid,
   waitForNewPage_invalid_id tm idv code arg timeoutMs now hInvalid⟩

/-- C7 witness: the four commands at the unknown string id `"nope"`. -/
theorem invalid_id_rejected_hasTab_only_witness :
    ((∃ m, (navigateTab tmEmpty (.vStr "nope") .vNull).1 = .error (.illegalArgument m)) ∧
      (∀ ev ∈ (navigateTab tmEmpty (.vStr "nope") .vNull).2, ∃ s, ev = Event.hasTab s) ∧
      ((∀ s, JSVal.vStr "nope" ≠ .vStr s) → (navigateTab tmEmpty (.vStr "nope") .vNull).2 = [])) ∧
    ((∃ m, (run tmEmpty (.vStr "nope") .vNull .vNull (fun _ => 0)).1 =
        .error (.illegalArgument m)) ∧
      (∀ ev ∈ (run tmEmpty (.vStr "nope") .vNull .vNull (fun _ => 0)).2,
        ∃ s, ev = Event.hasTab s) ∧
      ((∀ s, JSVal.vStr "nope" ≠ .vStr s) →
        (run tmEmpty (.vStr "nope") .vNull .vNull (fun _ => 0)).2 = [])) ∧
    (∃ m tr, wait tmEmpty (.vStr "nope") .vNull .vNull (fun _ => 0) 2 =
        some (.error (.illegalArgument m), tr) ∧
      (∀ ev ∈ tr, ∃ s, ev = Event.hasTab s) ∧
      ((∀ s, JSVal.vStr "nope" ≠ .vStr s) → tr = [])) ∧
    ((∃ m, (waitForNewPage tmEmpty (.vStr "nope") .vNull .vNull 1000 (fun _ => 0)).1 =
        .error (.illegalArgument m)) ∧
      (∀ ev ∈ (waitForNewPage tmEmpty (.vStr "nope") .vNull .vNull 1000 (fun _ => 0)).2,
        ∃ s, ev = Event.hasTab s) ∧
      ((∀ s, JSVal.vStr "nope" ≠ .vStr s) →
        (waitForNewPage tmEmpty (.vStr "nope") .vNull .vNull 1000 (fun _ => 0)).2 = [])) :=
  invalid_id_rejected_hasTab_only tmEmpty (.vStr "nope") .vNull .vNull .vNull 1000
    (fun _ => 0) 2 (fun _ _ => rfl)

/-- C8: evaluating the code at the failing input — `tabs.waitForNewPage`
invoked with the non-string id `42` — yields an `IllegalArgument` whose
message names `tabs.run()`, not `tabs.waitForNewPage()` as the spec
requires of every handler's validation error. -/
theorem waitForNewPage_error_names_run :
    waitForNewPage tmEmpty (.vNum 42) (.vStr "c") .vNull 1000 (fun _ => 0) =
      (.error (.illegalArgument "tabs.run(): invalid argument `id`"), []) := rfl

end TabsMethods
